import Mathlib

/-!
Verification of the uvue request-lifecycle orchestrator
(`packages/@uvue/server/src/Server.ts`).

The pipeline of `Server.renderMiddleware`, the hook dispatchers
`Server.invoke` / `Server.invokeAsync`, `Server.sendResponse` and
`Server.stop` are shallowly embedded as pure state-passing functions.
JavaScript object mutation becomes explicit record update; `async`
sequencing becomes explicit sequential composition (within a single
request the code awaits every step, so a request's pipeline is a
deterministic sequence); thrown errors / rejected promises become an
explicit error component.  The shared mutable field `this.renderer`,
which may be hot-swapped by the development middleware between two
suspension points, is modelled by a function from read-index to renderer:
`renderers n` is the value the field holds at the n-th time the pipeline
reads it.
-/

namespace UVue

/-- Errors thrown by hooks or renderer calls (JS exception values). -/
abbrev Err := String

/-- The `IRequestContext` as used by `Server.ts`: the per-request context
object created at the top of `renderMiddleware` (data scratch map,
`redirected` flag, optional `statusCode` override, `url` from `req.url`). -/
structure ReqCtx where
  data : List (String × String)
  redirected : Bool
  statusCode : Option Nat
  url : String
deriving DecidableEq, Repr

/-- The `IResponseContext`: `{ body, status }`, created fresh per request with
`body = ''`, `status = 200`. -/
structure ResCtx where
  body : String
  status : Nat
deriving DecidableEq, Repr

/-- The underlying transport response (`ServerResponse res`).  `finished`
is Node's "response finalized" signal; `endCount` counts every terminal
write (`res.end`), whether performed by a plugin or by `sendResponse`;
`sendCount` counts the calls of `Server.sendResponse` specifically. -/
structure Res where
  finished : Bool
  endCount : Nat
  sendCount : Nat
  contentType : Option String
  contentLength : Option Nat
  statusCode : Nat
  writtenBody : Option String
deriving DecidableEq, Repr

/-- Hook names dispatched by `renderMiddleware` (the per-request hooks). -/
inductive HookName where
  | beforeRender
  | beforeBuild
  | rendered
  | routeError
  | afterResponse
deriving DecidableEq, Repr

/-- Result of running one plugin hook: either normal return — yielding the
(possibly mutated) request context and response context, and whether the
hook itself finalized the transport response (`resEnd`, e.g. a redirect
plugin calling `res.end`) — or a thrown error / rejected promise. -/
inductive HookOutcome where
  | ok (ctx : ReqCtx) (response : ResCtx) (resEnd : Bool)
  | thrown (e : Err)

/-- A hook implementation.  The `Option Err` argument is the error passed
to `routeError` hooks (`none` for every other hook); the hook observes the
current request context, response context and transport response. -/
def HookFn := Option Err → ReqCtx → ResCtx → Res → HookOutcome

/-- A plugin: each lifecycle hook is optionally implemented
(`typeof plugin[name] === 'function'` probing in `invoke`/`invokeAsync`). -/
structure Plugin where
  beforeRender : Option HookFn := none
  beforeBuild : Option HookFn := none
  rendered : Option HookFn := none
  routeError : Option HookFn := none
  afterResponse : Option HookFn := none

/-- Dynamic hook lookup `plugin[name]`. -/
def Plugin.hook (p : Plugin) : HookName → Option HookFn
  | .beforeRender => p.beforeRender
  | .beforeBuild => p.beforeBuild
  | .rendered => p.rendered
  | .routeError => p.routeError
  | .afterResponse => p.afterResponse

/-- A renderer (`this.renderer`): `rid` is its identity (which build it
came from), and the three entry points used by `renderMiddleware`; each
may reject. `render` may mutate the request context (set `redirected`). -/
structure RendererM where
  rid : Nat
  renderSPAPage : Except Err String
  render : ReqCtx → Except Err (String × ReqCtx)
  renderSSRPage : String → ReqCtx → Except Err String

/-- Observable events of one middleware run, in order. -/
inductive Ev where
  | hookCalled (name : HookName) (idx : Nat)
  | hookThrew (name : HookName) (idx : Nat) (e : Err)
  | renderSPAPage (rid : Nat)
  | renderCall (rid : Nat)
  | renderSSRPage (rid : Nat)
  | send
  | logError (e : Err)
deriving DecidableEq, Repr

/-- The state threaded through a `renderMiddleware` run: the two context
objects, the transport response, the number of reads of `this.renderer`
performed so far, and the event trace. -/
structure MState where
  ctx : ReqCtx
  response : ResCtx
  res : Res
  rdIdx : Nat
  trace : List Ev

/-- Append an event to the trace. -/
def MState.addEv (s : MState) (e : Ev) : MState :=
  { s with trace := s.trace ++ [e] }

/-- Effect of a hook that finalized the transport response itself. -/
def applyEnd : Bool → Res → Res
  | false, r => r
  | true, r => { r with finished := true, endCount := r.endCount + 1 }

/-- The loop body shared by `Server.invoke` and `Server.invokeAsync`:
walk the plugin list in registration order carrying the registration
index `i`, skip plugins without the hook, run each present hook on the
current state, abort on the first thrown error and propagate it.
(`invoke` is synchronous, `invokeAsync` awaits each call; within one
request both produce the same sequential behaviour.) -/
def invokeAux (name : HookName) (arg : Option Err) :
    Nat → List Plugin → MState → MState × Option Err
  | _, [], s => (s, none)
  | i, p :: rest, s =>
    match p.hook name with
    | none => invokeAux name arg (i + 1) rest s
    | some f =>
      match f arg s.ctx s.response s.res with
      | .thrown e => (s.addEv (.hookThrew name i e), some e)
      | .ok c r fin =>
        invokeAux name arg (i + 1) rest
          { ctx := c, response := r, res := applyEnd fin s.res,
            rdIdx := s.rdIdx, trace := s.trace ++ [.hookCalled name i] }

/-- The `Server.invoke` / `Server.invokeAsync` loop over a whole plugin list. -/
def invokeHooks (name : HookName) (arg : Option Err)
    (ps : List Plugin) (s : MState) : MState × Option Err :=
  invokeAux name arg 0 ps s

/-- Registration indices of the plugins implementing a hook, in order. -/
def hookIdxsFrom (name : HookName) : Nat → List Plugin → List Nat
  | _, [] => []
  | i, p :: rest =>
    if (p.hook name).isSome then i :: hookIdxsFrom name (i + 1) rest
    else hookIdxsFrom name (i + 1) rest

/-- Fuelled core of the glob matcher (structural recursion on the fuel so
that concrete matches evaluate; every recursive call shrinks
`p.length + s.length`, so the fuel used below never runs out). -/
def globMatchF : Nat → List Char → List Char → Bool
  | 0, _, _ => false
  | _ + 1, [], s => s.isEmpty
  | fuel + 1, '*' :: '*' :: ps, s =>
    globMatchF fuel ps s ||
      (match s with
       | [] => false
       | _ :: s2 => globMatchF fuel ('*' :: '*' :: ps) s2)
  | fuel + 1, '*' :: ps, s =>
    globMatchF fuel ps s ||
      (match s with
       | [] => false
       | c :: s2 => !(c = '/') && globMatchF fuel ('*' :: ps) s2)
  | fuel + 1, '?' :: ps, s =>
    (match s with
     | [] => false
     | c :: s2 => !(c = '/') && globMatchF fuel ps s2)
  | fuel + 1, c :: ps, s =>
    (match s with
     | [] => false
     | d :: s2 => (c = d) && globMatchF fuel ps s2)

/-- Basic glob matching as performed by `micromatch` on a pattern without
extended syntax: `**` matches any sequence of characters including `/`,
`*` matches any sequence without `/`, `?` matches one character other
than `/`, every other character matches itself.  (The library also has
negation/brace/extglob syntax; the theorems below are parametric in the
matcher except where they evaluate it on literal patterns, for which this
core semantics is the documented behaviour.) -/
def globMatch (p s : List Char) : Bool :=
  globMatchF (p.length + s.length + 1) p s

/-- The check `micromatch.some(str, patterns)`: does any pattern match the string? -/
def micromatchSome (str : String) (pats : List String) : Bool :=
  pats.any fun p => globMatch p.toList str.toList

/-- The path part of a request URL: everything before the first `?`.
(Used only to state what matching "against the URL path only" would be;
the code itself matches the full `req.url`.) -/
def urlPath (u : String) : String :=
  String.mk (u.toList.takeWhile fun c => !(c = '?'))

/-- Number of UTF-16 code units of a string: the value of JavaScript's
`string.length`, which line 251 of `Server.ts` writes into the
`Content-Length` header. -/
def utf16Len (s : String) : Nat :=
  s.data.foldl (fun n c => n + (if c.toNat < 0x10000 then 1 else 2)) 0

/-- UTF-8 size of one character. -/
def charUtf8Size (c : Char) : Nat :=
  if c.toNat < 0x80 then 1
  else if c.toNat < 0x800 then 2
  else if c.toNat < 0x10000 then 3
  else 4

/-- Number of bytes of the UTF-8 encoding of a string: what `res.end(body)`
actually puts on the wire (Node encodes strings as UTF-8 by default), i.e.
the correct `Content-Length`. -/
def byteLen (s : String) : Nat :=
  s.data.foldl (fun n c => n + charUtf8Size c) 0

/-- JavaScript `statusCode || status`: `0` (and `undefined`) are falsy. -/
def jsStatus (o : Option Nat) (d : Nat) : Nat :=
  match o with
  | some c => if c = 0 then d else c
  | none => d

/-- The `Server.sendResponse` step: set `Content-Type`, set `Content-Length` to the
JS string length of the body, set the status code (context `statusCode`
override wins over `response.status`), write the body and finalize. -/
def sendResponseM (response : ResCtx) (ctx : ReqCtx) (res : Res) : Res :=
  { finished := true
    endCount := res.endCount + 1
    sendCount := res.sendCount + 1
    contentType := some "text/html; charset=utf-8"
    contentLength := some (utf16Len response.body)
    statusCode := jsStatus ctx.statusCode response.status
    writtenBody := some response.body }

/-- One run's configuration: registered plugins, `options.spaPaths`, the
renderer the shared field holds at each read, the inbound `req.url`, and
whether `NODE_ENV === 'test'` (which suppresses error logging). -/
structure Cfg where
  plugins : List Plugin
  spaPaths : Option (List String)
  renderers : Nat → RendererM
  reqUrl : String
  testMode : Bool

/-- Reading `this.renderer` (the field may have been hot-swapped between
two reads of the same request). -/
def readRenderer (cfg : Cfg) (s : MState) : RendererM × MState :=
  (cfg.renderers s.rdIdx, { s with rdIdx := s.rdIdx + 1 })

/-- The SPA route classification of line 190:
`spaPaths && spaPaths.length && micromatch.some(context.url, spaPaths)`.
Note it receives `context.url` — the full request URL. -/
def classifySpa (cfg : Cfg) (url : String) : Bool :=
  match cfg.spaPaths with
  | some ps => !ps.isEmpty && micromatchSome url ps
  | none => false

/-- How the `try` block of `renderMiddleware` ended: fell through
normally, executed the redirect `return` of line 202 (which leaves the
whole function), or threw. -/
inductive TryOutcome where
  | completed
  | earlyReturn
  | thrown (e : Err)
deriving DecidableEq, Repr

/-- Lines 212-216: the `rendered` hooks followed by `sendResponse`,
shared by the SPA and SSR branches. -/
def renderedAndSend (cfg : Cfg) (s : MState) : MState × TryOutcome :=
  match invokeHooks .rendered none cfg.plugins s with
  | (s1, some e) => (s1, .thrown e)
  | (s1, none) =>
    (({ s1 with res := sendResponseM s1.response s1.ctx s1.res }).addEv .send,
      .completed)

/-- Lines 183-217: the `try` block of `renderMiddleware`. -/
def tryBody (cfg : Cfg) (s0 : MState) : MState × TryOutcome :=
  match invokeHooks .beforeRender none cfg.plugins s0 with
  | (s1, some e) => (s1, .thrown e)
  | (s1, none) =>
    if s1.res.finished then (s1, .completed)
    else if classifySpa cfg s1.ctx.url then
      match readRenderer cfg s1 with
      | (r, s2) =>
        match (s2.addEv (.renderSPAPage r.rid)), r.renderSPAPage with
        | s2, .error e => (s2, .thrown e)
        | s2, .ok b =>
          renderedAndSend cfg { s2 with response := { s2.response with body := b } }
    else
      match readRenderer cfg s1 with
      | (r, s2) =>
        match (s2.addEv (.renderCall r.rid)), r.render s2.ctx with
        | s2, .error e => (s2, .thrown e)
        | s2, .ok (b, c2) =>
          match { s2 with ctx := c2, response := { s2.response with body := b } } with
          | s3 =>
            if s3.ctx.redirected then (s3, .earlyReturn)
            else
              match invokeHooks .beforeBuild none cfg.plugins s3 with
              | (s4, some e) => (s4, .thrown e)
              | (s4, none) =>
                match readRenderer cfg s4 with
                | (r2, s5) =>
                  match (s5.addEv (.renderSSRPage r2.rid)),
                        r2.renderSSRPage s5.response.body s5.ctx with
                  | s5, .error e => (s5, .thrown e)
                  | s5, .ok b2 =>
                    renderedAndSend cfg
                      { s5 with response := { s5.response with body := b2 } }

/-- Lines 219-222: `consola.error(err)` unless `NODE_ENV === 'test'`. -/
def logStep (cfg : Cfg) (e : Err) (s : MState) : MState :=
  if cfg.testMode then s else s.addEv (.logError e)

/-- Lines 228-230: the default error response —
`body = body || 'Server error'`, `status = 500`, then `sendResponse`. -/
def errorSend (s1 : MState) : MState :=
  match { s1 with response :=
      { body := if s1.response.body = "" then "Server error" else s1.response.body
        status := 500 } } with
  | s2 =>
    ({ s2 with res := sendResponseM s2.response s2.ctx s2.res }).addEv .send

/-- Lines 218-232: the `catch` block — log, run `routeError` hooks with
the error (their own error propagates), then if the transport response is
still not finished: `body = body || 'Server error'`, `status = 500`,
`sendResponse`. -/
def catchBody (cfg : Cfg) (e : Err) (s : MState) : MState × Option Err :=
  match invokeHooks .routeError (some e) cfg.plugins (logStep cfg e s) with
  | (s1, some e2) => (s1, some e2)
  | (s1, none) =>
    if s1.res.finished then (s1, none)
    else (errorSend s1, none)

/-- Line 235 and the final return: run the `afterResponse` hooks with the
synchronous `invoke` (an error aborts the rest and escapes the function),
then return `{ context, response }`. -/
def finishAR (cfg : Cfg) (s : MState) :
    MState × Except Err (Option (ReqCtx × ResCtx)) :=
  match invokeHooks .afterResponse none cfg.plugins s with
  | (s1, some e) => (s1, .error e)
  | (s1, none) => (s1, .ok (some (s1.ctx, s1.response)))

/-- Lines 170-181: the fresh per-request state. -/
def initState (cfg : Cfg) : MState :=
  { ctx := { data := [], redirected := false, statusCode := none, url := cfg.reqUrl }
    response := { body := "", status := 200 }
    res := { finished := false, endCount := 0, sendCount := 0, contentType := none,
             contentLength := none, statusCode := 200, writtenBody := none }
    rdIdx := 0
    trace := [] }

/-- The `Server.renderMiddleware` pipeline (lines 169-241) for one inbound request:
the `try` block, the `catch` block on a thrown error, then — except when
the redirect `return` left the function early — the `afterResponse` hooks
and the `{ context, response }` return value.  The `Except` component is
the middleware's own promise: `.error` means the function itself threw /
rejected (a `routeError` or `afterResponse` hook failed). -/
def renderMiddleware (cfg : Cfg) :
    MState × Except Err (Option (ReqCtx × ResCtx)) :=
  match tryBody cfg (initState cfg) with
  | (s, .earlyReturn) => (s, .ok none)
  | (s, .completed) => finishAR cfg s
  | (s, .thrown e) =>
    match catchBody cfg e s with
    | (s1, some e2) => (s1, .error e2)
    | (s1, none) => finishAR cfg s1

/-- The run of the `try` block from the fresh state. -/
def tryRun (cfg : Cfg) : MState × TryOutcome :=
  tryBody cfg (initState cfg)

/-- The `beforeRender` phase from an arbitrary state. -/
def brAt (cfg : Cfg) (s : MState) : MState × Option Err :=
  invokeHooks .beforeRender none cfg.plugins s

/-- The `beforeRender` phase from the fresh state. -/
def brPhase (cfg : Cfg) : MState × Option Err :=
  brAt cfg (initState cfg)

/-- The `routeError` phase as reached after the `try` block threw `e`. -/
def rePhase (cfg : Cfg) (e : Err) : MState × Option Err :=
  invokeHooks .routeError (some e) cfg.plugins (logStep cfg e (tryRun cfg).1)

/-- The state just before the `afterResponse` hooks run: `none` when the
pipeline returned early on the redirect flag or a `routeError` hook threw
(in those cases line 235 is never reached). -/
def postPipeline (cfg : Cfg) : Option MState :=
  match tryBody cfg (initState cfg) with
  | (_, .earlyReturn) => none
  | (s, .completed) => some s
  | (s, .thrown e) =>
    match catchBody cfg e s with
    | (_, some _) => none
    | (s1, none) => some s1

/-- The `afterResponse` phase on a given state. -/
def arPhase (cfg : Cfg) (s : MState) : MState × Option Err :=
  invokeHooks .afterResponse none cfg.plugins s

/-! ### Trace observers -/

/-- Extract the renderer id of a `render` (full SSR render) event. -/
def rcOf : Ev → Option Nat
  | .renderCall r => some r
  | _ => none

/-- Extract the renderer id of a `renderSSRPage` (page assembly) event. -/
def ssrOf : Ev → Option Nat
  | .renderSSRPage r => some r
  | _ => none

/-- Extract the renderer id of a `renderSPAPage` event. -/
def spaOf : Ev → Option Nat
  | .renderSPAPage r => some r
  | _ => none

/-- The renderer ids of all `render` calls of a trace, in order. -/
def rcList (t : List Ev) : List Nat := t.filterMap rcOf

/-- The renderer ids of all `renderSSRPage` calls of a trace, in order. -/
def ssrList (t : List Ev) : List Nat := t.filterMap ssrOf

/-- The renderer ids of all `renderSPAPage` calls of a trace, in order. -/
def spaList (t : List Ev) : List Nat := t.filterMap spaOf

/-- The plugin indices of the successful calls of hook `n` in a trace. -/
def hookCallsOf (n : HookName) (t : List Ev) : List Nat :=
  t.filterMap fun e =>
    match e with
    | .hookCalled m i => if m = n then some i else none
    | _ => none

/-- An extractor that ignores everything except renderer-call events. -/
def RenderOnly {α : Type} (f : Ev → Option α) : Prop :=
  (∀ n j, f (Ev.hookCalled n j) = none) ∧
  (∀ n j e, f (Ev.hookThrew n j e) = none) ∧
  (∀ e, f (Ev.logError e) = none) ∧
  f Ev.send = none

/-! ### Start/stop state machine (`Server.start` / `Server.stop`) -/

/-- Orchestrator state for the start/stop machine: the public `started`
flag, the number of installed `SIGINT`/`SIGTERM` handlers, and whether
the adapter is accepting connections. -/
structure SrvState where
  started : Bool
  sigHandlers : Nat
  adapterRunning : Bool
deriving DecidableEq, Repr

/-- Modelled from the spec: the Transport Adapter's `stop()` (the adapter
implementations, e.g. `ConnectAdapter.ts`, are not part of the sources
at hand).  Per §4.1 it stops accepting connections and is idempotent —
safe to call when not started. -/
def adapterStop (s : SrvState) : SrvState :=
  { s with adapterRunning := false }

/-- The `Server.stop` method (lines 147-153): if `this.started`, remove all
`SIGINT`/`SIGTERM` listeners and delegate to `adapter.stop()`; otherwise
do nothing.  Note the method never assigns `this.started = false`. -/
def serverStop (s : SrvState) : SrvState :=
  if s.started then adapterStop { s with sigHandlers := 0 } else s

/-! ### Concrete runs used as witnesses and counterexamples -/

/-- A renderer that always succeeds, with identity `n`. -/
def okRenderer (n : Nat) : RendererM :=
  { rid := n
    renderSPAPage := .ok "spa"
    render := fun c => .ok ("ssr", c)
    renderSSRPage := fun b _ => .ok ("page:" ++ b) }

/-- A renderer whose `render` issues a redirect: it sets
`context.redirected` and resolves (without writing a body). -/
def redirRenderer : RendererM :=
  { rid := 0
    renderSPAPage := .ok "spa"
    render := fun c => .ok ("", { c with redirected := true })
    renderSSRPage := fun b _ => .ok b }

/-- A renderer whose full `render` rejects. -/
def errRenderer : RendererM :=
  { rid := 0
    renderSPAPage := .ok "spa"
    render := fun _ => .error "boom"
    renderSSRPage := fun b _ => .ok b }

/-- A plugin whose `beforeRender` hook writes the response itself (e.g. an
HTTP redirect) and finalizes the transport response. -/
def finishingPlugin : Plugin :=
  { beforeRender := some fun _ c r _ => .ok c r true }

/-- A plugin whose `beforeRender` hook sets `context.redirected = true`
without writing anything to the transport response. -/
def redirFlagPlugin : Plugin :=
  { beforeRender := some fun _ c r _ => .ok { c with redirected := true } r false }

/-- A plugin whose `afterResponse` hook throws. -/
def arThrowPlugin : Plugin :=
  { afterResponse := some fun _ _ _ _ => .thrown "arboom" }

/-- A plugin whose `routeError` hook writes an error response itself and
finalizes the transport response. -/
def reFinishPlugin : Plugin :=
  { routeError := some fun _ c r _ => .ok c r true }

/-- A plugin without hooks. -/
def noopPlugin : Plugin := {}

/-- A plugin with a `rendered` hook that succeeds without changes. -/
def renderedOkPlugin : Plugin :=
  { rendered := some fun _ c r _ => .ok c r false }

/-- No plugins, no SPA globs, the renderer redirects during `render`. -/
def cfgRedirect : Cfg :=
  { plugins := [], spaPaths := none, renderers := fun _ => redirRenderer,
    reqUrl := "/x", testMode := true }

/-- One plugin whose `beforeRender` finalizes the response. -/
def cfgFinish : Cfg :=
  { plugins := [finishingPlugin], spaPaths := none,
    renderers := fun _ => okRenderer 0, reqUrl := "/x", testMode := true }

/-- One plugin whose `beforeRender` sets the redirect flag only. -/
def cfgRedirFlag : Cfg :=
  { plugins := [redirFlagPlugin], spaPaths := none,
    renderers := fun _ => okRenderer 5, reqUrl := "/x", testMode := true }

/-- No plugins; the full SSR render rejects. -/
def cfgRenderErr : Cfg :=
  { plugins := [], spaPaths := none, renderers := fun _ => errRenderer,
    reqUrl := "/x", testMode := true }

/-- One plugin whose `afterResponse` throws; rendering succeeds. -/
def cfgArThrow : Cfg :=
  { plugins := [arThrowPlugin], spaPaths := none,
    renderers := fun _ => okRenderer 0, reqUrl := "/x", testMode := true }

/-- SPA glob `/app` configured; request URL `/app?x=1` (its path part is
`/app`, but the code matches the full URL). -/
def cfgQuery : Cfg :=
  { plugins := [], spaPaths := some ["/app"],
    renderers := fun _ => okRenderer 0, reqUrl := "/app?x=1", testMode := true }

/-- SPA glob `/app/**` matched by the request URL `/app/dash`. -/
def cfgSpa : Cfg :=
  { plugins := [], spaPaths := some ["/app/**"],
    renderers := fun _ => okRenderer 3, reqUrl := "/app/dash", testMode := true }

/-- The shared renderer field is hot-swapped between the two reads of one
SSR request: the n-th read observes a renderer with identity n. -/
def cfgSwap : Cfg :=
  { plugins := [], spaPaths := none, renderers := fun n => okRenderer n,
    reqUrl := "/x", testMode := true }

/-- Config where `render` rejects and a `routeError` plugin finalizes the response
itself. -/
def cfgReFinish : Cfg :=
  { plugins := [reFinishPlugin], spaPaths := none,
    renderers := fun _ => errRenderer, reqUrl := "/x", testMode := true }

/-! ## Lemmas about the hook dispatcher -/

theorem invokeAux_pres (name : HookName) (arg : Option Err) (ps : List Plugin)
    (i : Nat) (s : MState) :
    (invokeAux name arg i ps s).1.res.sendCount = s.res.sendCount ∧
    (invokeAux name arg i ps s).1.rdIdx = s.rdIdx ∧
    (invokeAux name arg i ps s).1.res.writtenBody = s.res.writtenBody ∧
    (invokeAux name arg i ps s).1.res.statusCode = s.res.statusCode ∧
    (invokeAux name arg i ps s).1.res.contentLength = s.res.contentLength := by
  induction ps generalizing i s with
  | nil => exact ⟨rfl, rfl, rfl, rfl, rfl⟩
  | cons p rest ih =>
    simp only [invokeAux]
    split
    · exact ih _ _
    · split
      · exact ⟨rfl, rfl, rfl, rfl, rfl⟩
      · rename_i f hf c r fin hout
        have h := ih (i + 1)
          { ctx := c, response := r, res := applyEnd fin s.res,
            rdIdx := s.rdIdx, trace := s.trace ++ [.hookCalled name i] }
        cases fin <;> simpa [applyEnd] using h

theorem invokeAux_finished (name : HookName) (arg : Option Err) (ps : List Plugin)
    (i : Nat) (s : MState) (h : s.res.finished = true) :
    (invokeAux name arg i ps s).1.res.finished = true := by
  induction ps generalizing i s with
  | nil => exact h
  | cons p rest ih =>
    simp only [invokeAux]
    split
    · exact ih _ _ h
    · split
      · exact h
      · rename_i f hf c r fin hout
        refine ih _ _ ?_
        cases fin <;> simp [applyEnd, h]

theorem invokeAux_spec (name : HookName) (arg : Option Err) (ps : List Plugin)
    (i : Nat) (s : MState) :
    ((invokeAux name arg i ps s).2 = none →
      (invokeAux name arg i ps s).1.trace =
        s.trace ++ (hookIdxsFrom name i ps).map (Ev.hookCalled name)) ∧
    ∀ e, (invokeAux name arg i ps s).2 = some e →
      ∃ pre j, List.IsPrefix (pre ++ [j]) (hookIdxsFrom name i ps) ∧
        (invokeAux name arg i ps s).1.trace =
          s.trace ++ pre.map (Ev.hookCalled name) ++ [Ev.hookThrew name j e] := by
  induction ps generalizing i s with
  | nil =>
    constructor
    · intro _
      simp [invokeAux, hookIdxsFrom]
    · intro e he
      simp [invokeAux] at he
  | cons p rest ih =>
    simp only [invokeAux, hookIdxsFrom]
    split
    · rename_i hp
      simpa [hp] using ih (i + 1) s
    · rename_i f hp
      simp only [hp, Option.isSome_some, if_pos]
      split
      · rename_i e0 hout
        constructor
        · intro h
          simp at h
        · intro e he
          simp only [Option.some.injEq] at he
          subst he
          refine ⟨[], i, ⟨hookIdxsFrom name (i + 1) rest, by simp⟩, ?_⟩
          simp [MState.addEv]
      · rename_i c r fin hout
        constructor
        · intro h
          have := (ih (i + 1)
            { ctx := c, response := r, res := applyEnd fin s.res,
              rdIdx := s.rdIdx, trace := s.trace ++ [.hookCalled name i] }).1 h
          simp only [this]
          simp [List.append_assoc]
        · intro e he
          obtain ⟨pre, j, hpre, ht⟩ := (ih (i + 1)
            { ctx := c, response := r, res := applyEnd fin s.res,
              rdIdx := s.rdIdx, trace := s.trace ++ [.hookCalled name i] }).2 e he
          refine ⟨i :: pre, j, ?_, ?_⟩
          · obtain ⟨t, ht'⟩ := hpre
            exact ⟨t, by simp [← ht']⟩
          · simp only [ht]
            simp [List.append_assoc]

theorem invokeAux_trace_mono (name : HookName) (arg : Option Err)
    (ps : List Plugin) (i : Nat) (s : MState) :
    List.IsPrefix s.trace (invokeAux name arg i ps s).1.trace := by
  rcases he : (invokeAux name arg i ps s).2 with _ | e
  · rw [(invokeAux_spec name arg ps i s).1 he]
    exact List.prefix_append _ _
  · obtain ⟨pre, j, _, ht⟩ := (invokeAux_spec name arg ps i s).2 e he
    rw [ht, List.append_assoc]
    exact List.prefix_append _ _

theorem invokeAux_filterMap {α : Type} (f : Ev → Option α) (name : HookName)
    (arg : Option Err) (ps : List Plugin) (i : Nat) (s : MState)
    (h1 : ∀ j, f (Ev.hookCalled name j) = none)
    (h2 : ∀ j e, f (Ev.hookThrew name j e) = none) :
    List.filterMap f (invokeAux name arg i ps s).1.trace =
      List.filterMap f s.trace := by
  induction ps generalizing i s with
  | nil => rfl
  | cons p rest ih =>
    simp only [invokeAux]
    split
    · exact ih _ _
    · split
      · simp [MState.addEv, List.filterMap_append, h2]
      · rw [ih]
        simp [List.filterMap_append, h1]

theorem invokeHooks_pres (name : HookName) (arg : Option Err) (ps : List Plugin)
    (s : MState) :
    (invokeHooks name arg ps s).1.res.sendCount = s.res.sendCount ∧
    (invokeHooks name arg ps s).1.rdIdx = s.rdIdx ∧
    (invokeHooks name arg ps s).1.res.writtenBody = s.res.writtenBody ∧
    (invokeHooks name arg ps s).1.res.statusCode = s.res.statusCode ∧
    (invokeHooks name arg ps s).1.res.contentLength = s.res.contentLength :=
  invokeAux_pres name arg ps 0 s

theorem invokeHooks_finished (name : HookName) (arg : Option Err) (ps : List Plugin)
    (s : MState) (h : s.res.finished = true) :
    (invokeHooks name arg ps s).1.res.finished = true :=
  invokeAux_finished name arg ps 0 s h

theorem invokeHooks_trace_mono (name : HookName) (arg : Option Err)
    (ps : List Plugin) (s : MState) :
    List.IsPrefix s.trace (invokeHooks name arg ps s).1.trace :=
  invokeAux_trace_mono name arg ps 0 s

theorem invokeHooks_filterMap {α : Type} (f : Ev → Option α) (name : HookName)
    (arg : Option Err) (ps : List Plugin) (s : MState)
    (h1 : ∀ j, f (Ev.hookCalled name j) = none)
    (h2 : ∀ j e, f (Ev.hookThrew name j e) = none) :
    List.filterMap f (invokeHooks name arg ps s).1.trace =
      List.filterMap f s.trace :=
  invokeAux_filterMap f name arg ps 0 s h1 h2

/-! ## Small step lemmas -/

theorem renderOnly_rcOf : RenderOnly rcOf :=
  ⟨fun _ _ => rfl, fun _ _ _ => rfl, fun _ => rfl, rfl⟩

theorem renderOnly_ssrOf : RenderOnly ssrOf :=
  ⟨fun _ _ => rfl, fun _ _ _ => rfl, fun _ => rfl, rfl⟩

theorem renderOnly_spaOf : RenderOnly spaOf :=
  ⟨fun _ _ => rfl, fun _ _ _ => rfl, fun _ => rfl, rfl⟩

theorem invokeHooks_renderOnly {α : Type} (f : Ev → Option α) (hf : RenderOnly f)
    (name : HookName) (arg : Option Err) (ps : List Plugin) (s : MState) :
    List.filterMap f (invokeHooks name arg ps s).1.trace =
      List.filterMap f s.trace :=
  invokeHooks_filterMap f name arg ps s (fun j => hf.1 name j)
    (fun j e => hf.2.1 name j e)

theorem logStep_res (cfg : Cfg) (e : Err) (s : MState) :
    (logStep cfg e s).res = s.res := by
  unfold logStep
  split <;> rfl

theorem logStep_rdIdx (cfg : Cfg) (e : Err) (s : MState) :
    (logStep cfg e s).rdIdx = s.rdIdx := by
  unfold logStep
  split <;> rfl

theorem logStep_filterMap {α : Type} (f : Ev → Option α) (hf : RenderOnly f)
    (cfg : Cfg) (e : Err) (s : MState) :
    List.filterMap f (logStep cfg e s).trace = List.filterMap f s.trace := by
  unfold logStep
  split
  · rfl
  · simp [MState.addEv, List.filterMap_append, hf.2.2.1]

theorem logStep_trace_mono (cfg : Cfg) (e : Err) (s : MState) :
    List.IsPrefix s.trace (logStep cfg e s).trace := by
  unfold logStep
  split
  · exact List.prefix_refl _
  · exact List.prefix_append _ _

theorem errorSend_res (s1 : MState) :
    (errorSend s1).res =
      sendResponseM
        { body := if s1.response.body = "" then "Server error" else s1.response.body
          status := 500 } s1.ctx s1.res := rfl

theorem errorSend_response (s1 : MState) :
    (errorSend s1).response =
      { body := if s1.response.body = "" then "Server error" else s1.response.body
        status := 500 } := rfl

theorem errorSend_ctx (s1 : MState) : (errorSend s1).ctx = s1.ctx := rfl

theorem errorSend_trace (s1 : MState) :
    (errorSend s1).trace = s1.trace ++ [Ev.send] := rfl

theorem errorSend_filterMap {α : Type} (f : Ev → Option α) (hf : RenderOnly f)
    (s1 : MState) :
    List.filterMap f (errorSend s1).trace = List.filterMap f s1.trace := by
  rw [errorSend_trace]
  simp [List.filterMap_append, hf.2.2.2]

/-! ## Phase lemmas: `renderedAndSend`, `tryBody`, `catchBody`, `finishAR` -/

theorem renderedAndSend_thrown_sendCount (cfg : Cfg) (s : MState) (e : Err)
    (h : (renderedAndSend cfg s).2 = .thrown e) :
    (renderedAndSend cfg s).1.res.sendCount = s.res.sendCount := by
  revert h
  simp only [renderedAndSend]
  split
  · rename_i s1 e0 heq
    intro _
    have h1 := congrArg Prod.fst heq
    simp only at h1
    rw [← h1]
    exact (invokeHooks_pres _ _ _ _).1
  · intro h
    exact absurd h (by simp)

theorem renderedAndSend_sendCount_le (cfg : Cfg) (s : MState) :
    (renderedAndSend cfg s).1.res.sendCount ≤ s.res.sendCount + 1 := by
  simp only [renderedAndSend]
  split
  · rename_i s1 e0 heq
    have h1 := congrArg Prod.fst heq
    simp only at h1
    rw [← h1]
    exact Nat.le_succ_of_le (Nat.le_of_eq (invokeHooks_pres _ _ _ _).1)
  · rename_i s1 heq
    have h1 := congrArg Prod.fst heq
    simp only at h1
    have h2 : s1.res.sendCount = s.res.sendCount := by
      rw [← h1]
      exact (invokeHooks_pres _ _ _ _).1
    simp [MState.addEv, sendResponseM, h2]

theorem renderedAndSend_filterMap {α : Type} (f : Ev → Option α)
    (hf : RenderOnly f) (cfg : Cfg) (s : MState) :
    List.filterMap f (renderedAndSend cfg s).1.trace =
      List.filterMap f s.trace := by
  simp only [renderedAndSend]
  split
  · rename_i s1 e0 heq
    have h1 := congrArg Prod.fst heq
    simp only at h1
    rw [← h1]
    exact invokeHooks_renderOnly f hf _ _ _ _
  · rename_i s1 heq
    have h1 := congrArg Prod.fst heq
    simp only at h1
    have h2 : List.filterMap f s1.trace = List.filterMap f s.trace := by
      rw [← h1]
      exact invokeHooks_renderOnly f hf _ _ _ _
    simp [MState.addEv, List.filterMap_append, hf.2.2.2, h2]

theorem tryBody_thrown_sendCount (cfg : Cfg) (s : MState) (e : Err)
    (h : (tryBody cfg s).2 = .thrown e) :
    (tryBody cfg s).1.res.sendCount = s.res.sendCount := by
  revert h
  simp only [tryBody, readRenderer, MState.addEv]
  split
  · rename_i s1 e0 heq
    intro _
    have h1 := congrArg Prod.fst heq
    simp only at h1
    rw [← h1]
    exact (invokeHooks_pres _ _ _ _).1
  · rename_i s1 heq
    have h1 := congrArg Prod.fst heq
    simp only at h1
    have hs1 : s1.res.sendCount = s.res.sendCount := by
      rw [← h1]
      exact (invokeHooks_pres _ _ _ _).1
    split
    · intro h
      exact absurd h (by simp)
    · split
      · -- SPA branch
        split
        · intro _
          exact hs1
        · intro h
          have := renderedAndSend_thrown_sendCount cfg _ e h
          rw [this]
          exact hs1
      · -- SSR branch
        split
        · intro _
          exact hs1
        · rename_i b c2 hr
          split
          · intro h
            exact absurd h (by simp)
          · split
            · rename_i s4 e0 heq4
              intro _
              have h4 := congrArg Prod.fst heq4
              simp only at h4
              rw [← h4]
              rw [(invokeHooks_pres _ _ _ _).1]
              exact hs1
            · rename_i s4 heq4
              have h4 := congrArg Prod.fst heq4
              simp only at h4
              have hs4 : s4.res.sendCount = s.res.sendCount := by
                rw [← h4, (invokeHooks_pres _ _ _ _).1]
                exact hs1
              split
              · intro _
                exact hs4
              · intro h
                have := renderedAndSend_thrown_sendCount cfg _ e h
                rw [this]
                exact hs4

theorem tryBody_sendCount_le (cfg : Cfg) (s : MState) :
    (tryBody cfg s).1.res.sendCount ≤ s.res.sendCount + 1 := by
  simp only [tryBody, readRenderer, MState.addEv]
  split
  · rename_i s1 e0 heq
    have h1 := congrArg Prod.fst heq
    simp only at h1
    rw [← h1]
    exact Nat.le_succ_of_le (Nat.le_of_eq (invokeHooks_pres _ _ _ _).1)
  · rename_i s1 heq
    have h1 := congrArg Prod.fst heq
    simp only at h1
    have hs1 : s1.res.sendCount = s.res.sendCount := by
      rw [← h1]
      exact (invokeHooks_pres _ _ _ _).1
    split
    · exact Nat.le_succ_of_le (Nat.le_of_eq hs1)
    · split
      · -- SPA branch
        split
        · exact Nat.le_succ_of_le (Nat.le_of_eq hs1)
        · refine le_trans (renderedAndSend_sendCount_le cfg _) ?_
          simp [hs1]
      · -- SSR branch
        split
        · exact Nat.le_succ_of_le (Nat.le_of_eq hs1)
        · rename_i b c2 hr
          split
          · exact Nat.le_succ_of_le (Nat.le_of_eq hs1)
          · split
            · rename_i s4 e0 heq4
              have h4 := congrArg Prod.fst heq4
              simp only at h4
              rw [← h4]
              rw [(invokeHooks_pres _ _ _ _).1]
              exact Nat.le_succ_of_le (Nat.le_of_eq hs1)
            · rename_i s4 heq4
              have h4 := congrArg Prod.fst heq4
              simp only at h4
              have hs4 : s4.res.sendCount = s.res.sendCount := by
                rw [← h4, (invokeHooks_pres _ _ _ _).1]
                exact hs1
              split
              · exact Nat.le_succ_of_le (Nat.le_of_eq hs4)
              · refine le_trans (renderedAndSend_sendCount_le cfg _) ?_
                simp [hs4]

theorem catchBody_sendCount_le (cfg : Cfg) (e : Err) (s : MState) :
    (catchBody cfg e s).1.res.sendCount ≤ s.res.sendCount + 1 := by
  simp only [catchBody]
  split
  · rename_i s1 e2 heq
    have h1 := congrArg Prod.fst heq
    simp only at h1
    rw [← h1, (invokeHooks_pres _ _ _ _).1, (logStep_res cfg e s)]
    exact Nat.le_succ_of_le (Nat.le_refl _)
  · rename_i s1 heq
    have h1 := congrArg Prod.fst heq
    simp only at h1
    have hs1 : s1.res.sendCount = s.res.sendCount := by
      rw [← h1, (invokeHooks_pres _ _ _ _).1, (logStep_res cfg e s)]
    split
    · exact Nat.le_succ_of_le (Nat.le_of_eq hs1)
    · simp only [errorSend_res, sendResponseM]
      simp [hs1]

theorem catchBody_filterMap {α : Type} (f : Ev → Option α) (hf : RenderOnly f)
    (cfg : Cfg) (e : Err) (s : MState) :
    List.filterMap f (catchBody cfg e s).1.trace = List.filterMap f s.trace := by
  simp only [catchBody]
  split
  · rename_i s1 e2 heq
    have h1 := congrArg Prod.fst heq
    simp only at h1
    rw [← h1, invokeHooks_renderOnly f hf, logStep_filterMap f hf]
  · rename_i s1 heq
    have h1 := congrArg Prod.fst heq
    simp only at h1
    have hs1 : List.filterMap f s1.trace = List.filterMap f s.trace := by
      rw [← h1, invokeHooks_renderOnly f hf, logStep_filterMap f hf]
    split
    · exact hs1
    · rw [errorSend_filterMap f hf]
      exact hs1

theorem catchBody_trace_mono (cfg : Cfg) (e : Err) (s : MState) :
    List.IsPrefix (invokeHooks .routeError (some e) cfg.plugins (logStep cfg e s)).1.trace
      (catchBody cfg e s).1.trace := by
  simp only [catchBody]
  split
  · rename_i s1 e2 heq
    have h1 := congrArg Prod.fst heq
    simp only at h1
    rw [← h1]
  · rename_i s1 heq
    have h1 := congrArg Prod.fst heq
    simp only at h1
    split
    · rw [← h1]
    · rw [errorSend_trace, ← h1]
      exact List.prefix_append _ _

theorem finishAR_sendCount (cfg : Cfg) (s : MState) :
    (finishAR cfg s).1.res.sendCount = s.res.sendCount := by
  simp only [finishAR]
  split <;>
  · rename_i heq
    have h1 := congrArg Prod.fst heq
    simp only at h1
    rw [← h1]
    exact (invokeHooks_pres _ _ _ _).1

theorem finishAR_writtenBody (cfg : Cfg) (s : MState) :
    (finishAR cfg s).1.res.writtenBody = s.res.writtenBody := by
  simp only [finishAR]
  split <;>
  · rename_i heq
    have h1 := congrArg Prod.fst heq
    simp only at h1
    rw [← h1]
    exact (invokeHooks_pres _ _ _ _).2.2.1

theorem finishAR_resStatus (cfg : Cfg) (s : MState) :
    (finishAR cfg s).1.res.statusCode = s.res.statusCode := by
  simp only [finishAR]
  split <;>
  · rename_i heq
    have h1 := congrArg Prod.fst heq
    simp only at h1
    rw [← h1]
    exact (invokeHooks_pres _ _ _ _).2.2.2.1

theorem finishAR_finished (cfg : Cfg) (s : MState) (h : s.res.finished = true) :
    (finishAR cfg s).1.res.finished = true := by
  simp only [finishAR]
  split <;>
  · rename_i heq
    have h1 := congrArg Prod.fst heq
    simp only at h1
    rw [← h1]
    exact invokeHooks_finished _ _ _ _ h

theorem finishAR_trace_mono (cfg : Cfg) (s : MState) :
    List.IsPrefix s.trace (finishAR cfg s).1.trace := by
  simp only [finishAR]
  split <;>
  · rename_i heq
    have h1 := congrArg Prod.fst heq
    simp only at h1
    rw [← h1]
    exact invokeHooks_trace_mono _ _ _ _

theorem finishAR_filterMap {α : Type} (f : Ev → Option α) (hf : RenderOnly f)
    (cfg : Cfg) (s : MState) :
    List.filterMap f (finishAR cfg s).1.trace = List.filterMap f s.trace := by
  simp only [finishAR]
  split <;>
  · rename_i heq
    have h1 := congrArg Prod.fst heq
    simp only at h1
    rw [← h1]
    exact invokeHooks_renderOnly f hf _ _ _ _

theorem finishAR_fst (cfg : Cfg) (s : MState) :
    (finishAR cfg s).1 = (invokeHooks .afterResponse none cfg.plugins s).1 := by
  simp only [finishAR]
  split <;>
  · rename_i heq
    have h1 := congrArg Prod.fst heq
    simp only at h1
    exact h1.symm

theorem hookCallsOf_invokeHooks_ne (n m : HookName) (hnm : m ≠ n)
    (arg : Option Err) (ps : List Plugin) (s : MState) :
    hookCallsOf n (invokeHooks m arg ps s).1.trace = hookCallsOf n s.trace := by
  unfold hookCallsOf
  refine invokeHooks_filterMap _ m arg ps s ?_ ?_
  · intro j
    simp [hnm]
  · intro j e
    rfl

/-! ## Claim C1 -/

/-- C1: the claim states that exactly one terminal write (`sendResponse`)
occurs for every request.  Amended: at most one `sendResponse` call occurs
per request, on every path — however many hooks run, whichever branch is
taken and whether or not an error is thrown.  (The "exactly" part fails:
see the counterexample, where a renderer-flagged redirect leaves the
pipeline with zero `sendResponse` calls.) -/
theorem c1_theorem (cfg : Cfg) : (renderMiddleware cfg).1.res.sendCount ≤ 1 := by
  have h0 : (initState cfg).res.sendCount = 0 := rfl
  simp only [renderMiddleware]
  split
  · rename_i s heq
    have h1 := congrArg Prod.fst heq
    simp only at h1
    rw [← h1]
    have h := tryBody_sendCount_le cfg (initState cfg)
    simpa [h0] using h
  · rename_i s heq
    have h1 := congrArg Prod.fst heq
    simp only at h1
    rw [finishAR_sendCount, ← h1]
    have h := tryBody_sendCount_le cfg (initState cfg)
    simpa [h0] using h
  · rename_i s e heq
    have h1 := congrArg Prod.fst heq
    have h2 := congrArg Prod.snd heq
    simp only at h1 h2
    have hs : s.res.sendCount = 0 := by
      rw [← h1, tryBody_thrown_sendCount cfg _ e h2, h0]
    split
    · rename_i s1 e2 heq2
      have h3 := congrArg Prod.fst heq2
      simp only at h3
      show s1.res.sendCount ≤ 1
      rw [← h3]
      have h := catchBody_sendCount_le cfg e s
      omega
    · rename_i s1 heq2
      have h3 := congrArg Prod.fst heq2
      simp only at h3
      rw [finishAR_sendCount, ← h3]
      have h := catchBody_sendCount_le cfg e s
      omega

/-- C1 counterexample: with no plugins and a renderer whose `render` sets
`context.redirected` (without writing), the pipeline returns at line 202
and `sendResponse` is never called — zero terminal writes, not exactly
one. -/
theorem c1_counterexample :
    ¬ ((renderMiddleware cfgRedirect).1.res.sendCount = 1) := by decide

/-! ## Claim C2 -/

/-- C2 (amended): what stops the pipeline after the `beforeRender` hooks
is the transport response being finalized (`res.finished`), not the
`redirected` flag: if the `beforeRender` hooks complete with the response
finalized, no route classification, no renderer call, no `beforeBuild`,
no `rendered` hook and no automatic send happen — the run is exactly the
`beforeRender` phase followed by the `afterResponse` hooks.  (A
`beforeRender` hook that merely sets `redirected = true` does not stop
the pipeline: see the counterexample.) -/
theorem c2_theorem (cfg : Cfg) (h1 : (brPhase cfg).2 = none)
    (h2 : (brPhase cfg).1.res.finished = true) :
    renderMiddleware cfg = finishAR cfg (brPhase cfg).1 ∧
    (renderMiddleware cfg).1.res.sendCount = 0 ∧
    rcList (renderMiddleware cfg).1.trace = [] ∧
    ssrList (renderMiddleware cfg).1.trace = [] ∧
    spaList (renderMiddleware cfg).1.trace = [] ∧
    hookCallsOf .beforeBuild (renderMiddleware cfg).1.trace = [] ∧
    hookCallsOf .rendered (renderMiddleware cfg).1.trace = [] := by
  have hbr : invokeHooks .beforeRender none cfg.plugins (initState cfg) =
      ((brPhase cfg).1, none) := by
    rw [Prod.ext_iff]
    exact ⟨rfl, h1⟩
  have hpair : tryBody cfg (initState cfg) = ((brPhase cfg).1, TryOutcome.completed) := by
    simp only [tryBody, hbr, h2]
    simp
  have hmw : renderMiddleware cfg = finishAR cfg (brPhase cfg).1 := by
    simp only [renderMiddleware, hpair]
  refine ⟨hmw, ?_, ?_, ?_, ?_, ?_, ?_⟩
  · rw [hmw, finishAR_sendCount]
    exact (invokeHooks_pres _ _ _ _).1
  · rw [hmw]
    unfold rcList
    rw [finishAR_filterMap _ renderOnly_rcOf]
    exact invokeHooks_renderOnly _ renderOnly_rcOf _ _ _ _
  · rw [hmw]
    unfold ssrList
    rw [finishAR_filterMap _ renderOnly_ssrOf]
    exact invokeHooks_renderOnly _ renderOnly_ssrOf _ _ _ _
  · rw [hmw]
    unfold spaList
    rw [finishAR_filterMap _ renderOnly_spaOf]
    exact invokeHooks_renderOnly _ renderOnly_spaOf _ _ _ _
  · rw [hmw, finishAR_fst, hookCallsOf_invokeHooks_ne _ _ (by decide)]
    show hookCallsOf HookName.beforeBuild
      (invokeHooks .beforeRender none cfg.plugins (initState cfg)).1.trace = []
    rw [hookCallsOf_invokeHooks_ne _ _ (by decide)]
    rfl
  · rw [hmw, finishAR_fst, hookCallsOf_invokeHooks_ne _ _ (by decide)]
    show hookCallsOf HookName.rendered
      (invokeHooks .beforeRender none cfg.plugins (initState cfg)).1.trace = []
    rw [hookCallsOf_invokeHooks_ne _ _ (by decide)]
    rfl

/-- C2 counterexample: a `beforeRender` hook that sets
`context.redirected = true` but does not finalize the response does not
stop the pipeline — the full SSR render is still invoked (the code checks
`res.finished` after `beforeRender`, and checks `redirected` only after
`render`). -/
theorem c2_counterexample :
    Ev.renderCall 5 ∈ (renderMiddleware cfgRedirFlag).1.trace := by decide

/-- C2 witness: a concrete run whose `beforeRender` hook finalizes the
response; the theorem applies and the pipeline performs no render and no
automatic send. -/
theorem c2_witness :
    (brPhase cfgFinish).2 = none ∧
    (brPhase cfgFinish).1.res.finished = true ∧
    (renderMiddleware cfgFinish).1.res.sendCount = 0 ∧
    rcList (renderMiddleware cfgFinish).1.trace = [] :=
  ⟨rfl, rfl, (c2_theorem cfgFinish rfl rfl).2.1, (c2_theorem cfgFinish rfl rfl).2.2.1⟩

/-! ## Claim C3 -/

/-- C3: an error thrown at any step of the `try` block is caught once at
the pipeline boundary; the `routeError` hooks run with the error (their
events form a prefix of the final trace), and — provided they neither
throw nor have finalized the response — the response body defaults to the
existing body or `"Server error"`, the response status is set to `500`,
and the send step runs, finalizing the transport response with exactly one
`sendResponse` call (no hung connection). -/
theorem c3_theorem (cfg : Cfg) (e : Err)
    (h : (tryRun cfg).2 = TryOutcome.thrown e)
    (hre : (rePhase cfg e).2 = none)
    (hfin : (rePhase cfg e).1.res.finished = false) :
    catchBody cfg e (tryRun cfg).1 = (errorSend (rePhase cfg e).1, none) ∧
    (errorSend (rePhase cfg e).1).response.body =
      (if (rePhase cfg e).1.response.body = "" then "Server error"
       else (rePhase cfg e).1.response.body) ∧
    (errorSend (rePhase cfg e).1).response.status = 500 ∧
    (renderMiddleware cfg).1.res.finished = true ∧
    (renderMiddleware cfg).1.res.writtenBody =
      some (if (rePhase cfg e).1.response.body = "" then "Server error"
            else (rePhase cfg e).1.response.body) ∧
    (renderMiddleware cfg).1.res.statusCode =
      jsStatus (rePhase cfg e).1.ctx.statusCode 500 ∧
    (renderMiddleware cfg).1.res.sendCount = 1 ∧
    List.IsPrefix (rePhase cfg e).1.trace (renderMiddleware cfg).1.trace := by
  have hre' : invokeHooks .routeError (some e) cfg.plugins
      (logStep cfg e (tryRun cfg).1) = ((rePhase cfg e).1, none) := by
    rw [Prod.ext_iff]
    exact ⟨rfl, hre⟩
  have hcatch : catchBody cfg e (tryRun cfg).1 = (errorSend (rePhase cfg e).1, none) := by
    simp only [catchBody, hre', hfin]
    simp
  have htb : tryBody cfg (initState cfg) = ((tryRun cfg).1, TryOutcome.thrown e) := by
    rw [Prod.ext_iff]
    exact ⟨rfl, h⟩
  have hmw : renderMiddleware cfg = finishAR cfg (errorSend (rePhase cfg e).1) := by
    simp only [renderMiddleware, htb, hcatch]
  have hz : (rePhase cfg e).1.res.sendCount = 0 := by
    have h1 : (rePhase cfg e).1.res.sendCount =
        (logStep cfg e (tryRun cfg).1).res.sendCount :=
      (invokeHooks_pres _ _ _ _).1
    rw [h1, logStep_res]
    show (tryBody cfg (initState cfg)).1.res.sendCount = 0
    rw [tryBody_thrown_sendCount cfg _ e h]
    rfl
  refine ⟨hcatch, rfl, rfl, ?_, ?_, ?_, ?_, ?_⟩
  · rw [hmw]
    exact finishAR_finished cfg _ rfl
  · rw [hmw, finishAR_writtenBody]
    rfl
  · rw [hmw, finishAR_resStatus]
    rfl
  · rw [hmw, finishAR_sendCount]
    show (rePhase cfg e).1.res.sendCount + 1 = 1
    rw [hz]
  · rw [hmw]
    refine List.IsPrefix.trans ?_ (finishAR_trace_mono cfg _)
    rw [errorSend_trace]
    exact List.prefix_append _ _

/-- C3 witness: `render` rejects with `"boom"`, there are no plugins; the
client receives status 500 with body `"Server error"` in exactly one
terminal write. -/
theorem c3_witness :
    (tryRun cfgRenderErr).2 = TryOutcome.thrown "boom" ∧
    (renderMiddleware cfgRenderErr).1.res.finished = true ∧
    (renderMiddleware cfgRenderErr).1.res.writtenBody = some "Server error" ∧
    (renderMiddleware cfgRenderErr).1.res.statusCode = 500 ∧
    (renderMiddleware cfgRenderErr).1.res.sendCount = 1 := by
  have h := c3_theorem cfgRenderErr "boom" rfl rfl rfl
  refine ⟨rfl, h.2.2.2.1, ?_, ?_, h.2.2.2.2.2.2.1⟩
  · exact h.2.2.2.2.1.trans (by decide)
  · exact h.2.2.2.2.2.1.trans (by decide)

/-! ## Claim C10 -/

/-- C10: on the pipeline error path the `routeError` hooks are invoked
unconditionally (their phase's trace is a prefix of the final trace, even
when the response was already sent), while the default mutations
(`body || 'Server error'`, `status = 500`) and the resend are applied only
when the transport response is not finalized after the hooks: if it is
finalized, the catch block returns the post-`routeError` state unchanged
and performs no second send. -/
theorem c10_theorem (cfg : Cfg) (e : Err)
    (h : (tryRun cfg).2 = TryOutcome.thrown e) :
    List.IsPrefix (rePhase cfg e).1.trace (renderMiddleware cfg).1.trace ∧
    ((rePhase cfg e).2 = none → (rePhase cfg e).1.res.finished = true →
      catchBody cfg e (tryRun cfg).1 = ((rePhase cfg e).1, none) ∧
      (renderMiddleware cfg).1.res.sendCount = (rePhase cfg e).1.res.sendCount ∧
      (renderMiddleware cfg).1.res.writtenBody = (rePhase cfg e).1.res.writtenBody) ∧
    ((rePhase cfg e).2 = none → (rePhase cfg e).1.res.finished = false →
      catchBody cfg e (tryRun cfg).1 = (errorSend (rePhase cfg e).1, none)) := by
  have htb : tryBody cfg (initState cfg) = ((tryRun cfg).1, TryOutcome.thrown e) := by
    rw [Prod.ext_iff]
    exact ⟨rfl, h⟩
  refine ⟨?_, ?_, ?_⟩
  · simp only [renderMiddleware, htb]
    split
    · rename_i s1 e2 heq
      have h3 := congrArg Prod.fst heq
      simp only at h3
      show (rePhase cfg e).1.trace.IsPrefix s1.trace
      rw [← h3]
      exact catchBody_trace_mono cfg e (tryRun cfg).1
    · rename_i s1 heq
      have h3 := congrArg Prod.fst heq
      simp only at h3
      refine List.IsPrefix.trans ?_ (finishAR_trace_mono cfg s1)
      rw [← h3]
      exact catchBody_trace_mono cfg e (tryRun cfg).1
  · intro hre hfin
    have hre' : invokeHooks .routeError (some e) cfg.plugins
        (logStep cfg e (tryRun cfg).1) = ((rePhase cfg e).1, none) := by
      rw [Prod.ext_iff]
      exact ⟨rfl, hre⟩
    have hcatch : catchBody cfg e (tryRun cfg).1 = ((rePhase cfg e).1, none) := by
      simp only [catchBody, hre', hfin]
      simp
    have hmw : renderMiddleware cfg = finishAR cfg (rePhase cfg e).1 := by
      simp only [renderMiddleware, htb, hcatch]
    refine ⟨hcatch, ?_, ?_⟩
    · rw [hmw, finishAR_sendCount]
    · rw [hmw, finishAR_writtenBody]
  · intro hre hfin
    have hre' : invokeHooks .routeError (some e) cfg.plugins
        (logStep cfg e (tryRun cfg).1) = ((rePhase cfg e).1, none) := by
      rw [Prod.ext_iff]
      exact ⟨rfl, hre⟩
    simp only [catchBody, hre', hfin]
    simp

/-- C10 witness: `render` rejects and the only plugin's `routeError` hook
writes the error response itself, finalizing the transport response; the
catch block then leaves the state untouched and performs no send. -/
theorem c10_witness :
    (tryRun cfgReFinish).2 = TryOutcome.thrown "boom" ∧
    catchBody cfgReFinish "boom" (tryRun cfgReFinish).1 =
      ((rePhase cfgReFinish "boom").1, none) ∧
    (renderMiddleware cfgReFinish).1.res.sendCount = 0 := by
  refine ⟨rfl, ((c10_theorem cfgReFinish "boom" rfl).2.1 rfl rfl).1, ?_⟩
  have h := ((c10_theorem cfgReFinish "boom" rfl).2.1 rfl rfl).2.1
  rw [h]
  decide

/-! ## Claim C4 -/

theorem renderMiddleware_eq_finishAR (cfg : Cfg) (s : MState)
    (h : postPipeline cfg = some s) :
    renderMiddleware cfg = finishAR cfg s := by
  revert h
  simp only [postPipeline, renderMiddleware]
  split
  · intro h
    exact absurd h (by simp)
  · rename_i s0 heq
    intro h
    simp only [Option.some.injEq] at h
    rw [h]
  · rename_i s0 e heq
    split
    · intro h
      exact absurd h (by simp)
    · rename_i s1 heq2
      intro h
      simp only [Option.some.injEq] at h
      rw [h]

/-- C4 (amended): after the pipeline completes or its error path
completes, the `afterResponse` hooks run synchronously, in registration
order — but when the pipeline returns early on a renderer-flagged
redirect they are skipped; and an error thrown by an `afterResponse` hook
is not logged and not swallowed: it aborts the remaining `afterResponse`
hooks and propagates to the middleware's caller, while the already-written
transport response remains untouched. -/
theorem c4_theorem (cfg : Cfg) :
    ((tryRun cfg).2 = TryOutcome.earlyReturn →
      renderMiddleware cfg = ((tryRun cfg).1, Except.ok none)) ∧
    (∀ s : MState, postPipeline cfg = some s →
      ((arPhase cfg s).2 = none →
        (renderMiddleware cfg).2 =
          Except.ok (some ((arPhase cfg s).1.ctx, (arPhase cfg s).1.response)) ∧
        (renderMiddleware cfg).1.trace =
          s.trace ++ (hookIdxsFrom .afterResponse 0 cfg.plugins).map
            (Ev.hookCalled .afterResponse)) ∧
      (∀ e, (arPhase cfg s).2 = some e →
        (renderMiddleware cfg).2 = Except.error e ∧
        (renderMiddleware cfg).1.res.writtenBody = s.res.writtenBody ∧
        (renderMiddleware cfg).1.res.sendCount = s.res.sendCount)) := by
  constructor
  · intro he
    have htb : tryBody cfg (initState cfg) = ((tryRun cfg).1, TryOutcome.earlyReturn) := by
      rw [Prod.ext_iff]
      exact ⟨rfl, he⟩
    simp only [renderMiddleware, htb]
  · intro s hpost
    have hmw := renderMiddleware_eq_finishAR cfg s hpost
    constructor
    · intro har
      have har' : invokeHooks .afterResponse none cfg.plugins s =
          ((arPhase cfg s).1, none) := by
        rw [Prod.ext_iff]
        exact ⟨rfl, har⟩
      have hfin : finishAR cfg s =
          ((arPhase cfg s).1,
            Except.ok (some ((arPhase cfg s).1.ctx, (arPhase cfg s).1.response))) := by
        simp only [finishAR, har']
      constructor
      · rw [hmw, hfin]
      · rw [hmw, finishAR_fst]
        exact (invokeAux_spec .afterResponse none cfg.plugins 0 s).1 har
    · intro e har
      have har' : invokeHooks .afterResponse none cfg.plugins s =
          ((arPhase cfg s).1, some e) := by
        rw [Prod.ext_iff]
        exact ⟨rfl, har⟩
      have hfin : finishAR cfg s = ((arPhase cfg s).1, Except.error e) := by
        simp only [finishAR, har']
      refine ⟨by rw [hmw, hfin], ?_, ?_⟩
      · rw [hmw, finishAR_writtenBody]
      · rw [hmw, finishAR_sendCount]

/-- C4 counterexample: a single plugin whose `afterResponse` hook throws
`"arboom"` after a successful render: the middleware itself rejects with
that error — the failure is surfaced to the caller, not logged and
swallowed. -/
theorem c4_counterexample :
    (renderMiddleware cfgArThrow).2 = Except.error "arboom" := rfl

/-- C4 witness: the amended theorem applied to the concrete throwing
`afterResponse` plugin: the error propagates and the already-sent
transport response is unchanged. -/
theorem c4_witness :
    postPipeline cfgArThrow = some (tryRun cfgArThrow).1 ∧
    (arPhase cfgArThrow (tryRun cfgArThrow).1).2 = some "arboom" ∧
    (renderMiddleware cfgArThrow).2 = Except.error "arboom" ∧
    (renderMiddleware cfgArThrow).1.res.writtenBody =
      (tryRun cfgArThrow).1.res.writtenBody := by
  refine ⟨rfl, rfl, ?_, ?_⟩
  · exact (((c4_theorem cfgArThrow).2 (tryRun cfgArThrow).1 rfl).2 "arboom" rfl).1
  · exact (((c4_theorem cfgArThrow).2 (tryRun cfgArThrow).1 rfl).2 "arboom" rfl).2.1



/-! ## Renderer-call characterization of the pipeline -/

theorem rcList_append (t u : List Ev) : rcList (t ++ u) = rcList t ++ rcList u :=
  List.filterMap_append t u rcOf

theorem ssrList_append (t u : List Ev) : ssrList (t ++ u) = ssrList t ++ ssrList u :=
  List.filterMap_append t u ssrOf

theorem spaList_append (t u : List Ev) : spaList (t ++ u) = spaList t ++ spaList u :=
  List.filterMap_append t u spaOf

theorem rcList_spaEv (r : Nat) : rcList [Ev.renderSPAPage r] = [] := rfl

theorem rcList_rcEv (r : Nat) : rcList [Ev.renderCall r] = [r] := rfl

theorem rcList_ssrEv (r : Nat) : rcList [Ev.renderSSRPage r] = [] := rfl

theorem ssrList_spaEv (r : Nat) : ssrList [Ev.renderSPAPage r] = [] := rfl

theorem ssrList_rcEv (r : Nat) : ssrList [Ev.renderCall r] = [] := rfl

theorem ssrList_ssrEv (r : Nat) : ssrList [Ev.renderSSRPage r] = [r] := rfl

theorem spaList_spaEv (r : Nat) : spaList [Ev.renderSPAPage r] = [r] := rfl

theorem spaList_rcEv (r : Nat) : spaList [Ev.renderCall r] = [] := rfl

theorem spaList_ssrEv (r : Nat) : spaList [Ev.renderSSRPage r] = [] := rfl

theorem invokeHooks_rcList (name : HookName) (arg : Option Err) (ps : List Plugin)
    (s : MState) : rcList (invokeHooks name arg ps s).1.trace = rcList s.trace :=
  invokeHooks_renderOnly _ renderOnly_rcOf name arg ps s

theorem invokeHooks_ssrList (name : HookName) (arg : Option Err) (ps : List Plugin)
    (s : MState) : ssrList (invokeHooks name arg ps s).1.trace = ssrList s.trace :=
  invokeHooks_renderOnly _ renderOnly_ssrOf name arg ps s

theorem invokeHooks_spaList (name : HookName) (arg : Option Err) (ps : List Plugin)
    (s : MState) : spaList (invokeHooks name arg ps s).1.trace = spaList s.trace :=
  invokeHooks_renderOnly _ renderOnly_spaOf name arg ps s

theorem renderedAndSend_rcList (cfg : Cfg) (s : MState) :
    rcList (renderedAndSend cfg s).1.trace = rcList s.trace :=
  renderedAndSend_filterMap _ renderOnly_rcOf cfg s

theorem renderedAndSend_ssrList (cfg : Cfg) (s : MState) :
    ssrList (renderedAndSend cfg s).1.trace = ssrList s.trace :=
  renderedAndSend_filterMap _ renderOnly_ssrOf cfg s

theorem renderedAndSend_spaList (cfg : Cfg) (s : MState) :
    spaList (renderedAndSend cfg s).1.trace = spaList s.trace :=
  renderedAndSend_filterMap _ renderOnly_spaOf cfg s

theorem catchBody_rcList (cfg : Cfg) (e : Err) (s : MState) :
    rcList (catchBody cfg e s).1.trace = rcList s.trace :=
  catchBody_filterMap _ renderOnly_rcOf cfg e s

theorem catchBody_ssrList (cfg : Cfg) (e : Err) (s : MState) :
    ssrList (catchBody cfg e s).1.trace = ssrList s.trace :=
  catchBody_filterMap _ renderOnly_ssrOf cfg e s

theorem catchBody_spaList (cfg : Cfg) (e : Err) (s : MState) :
    spaList (catchBody cfg e s).1.trace = spaList s.trace :=
  catchBody_filterMap _ renderOnly_spaOf cfg e s

theorem finishAR_rcList (cfg : Cfg) (s : MState) :
    rcList (finishAR cfg s).1.trace = rcList s.trace :=
  finishAR_filterMap _ renderOnly_rcOf cfg s

theorem finishAR_ssrList (cfg : Cfg) (s : MState) :
    ssrList (finishAR cfg s).1.trace = ssrList s.trace :=
  finishAR_filterMap _ renderOnly_ssrOf cfg s

theorem finishAR_spaList (cfg : Cfg) (s : MState) :
    spaList (finishAR cfg s).1.trace = spaList s.trace :=
  finishAR_filterMap _ renderOnly_spaOf cfg s

theorem tryBody_lists_notReached (cfg : Cfg) (s : MState)
    (h : (brAt cfg s).2 ≠ none ∨ (brAt cfg s).1.res.finished = true) :
    rcList (tryBody cfg s).1.trace = rcList s.trace ∧
    ssrList (tryBody cfg s).1.trace = ssrList s.trace ∧
    spaList (tryBody cfg s).1.trace = spaList s.trace := by
  rcases hbr : invokeHooks .beforeRender none cfg.plugins s with ⟨s1, e1⟩
  have hbrA : brAt cfg s = (s1, e1) := hbr
  have h1 := congrArg Prod.fst hbr
  simp only at h1
  have hrc1 : rcList s1.trace = rcList s.trace := by
    rw [← h1, invokeHooks_rcList]
  have hssr1 : ssrList s1.trace = ssrList s.trace := by
    rw [← h1, invokeHooks_ssrList]
  have hspa1 : spaList s1.trace = spaList s.trace := by
    rw [← h1, invokeHooks_spaList]
  rw [hbrA] at h
  simp only at h
  cases e1 with
  | some e0 =>
    have htb : tryBody cfg s = (s1, TryOutcome.thrown e0) := by
      simp only [tryBody, hbr]
    rw [htb]
    exact ⟨hrc1, hssr1, hspa1⟩
  | none =>
    have hfin : s1.res.finished = true := by
      rcases h with h | h
      · exact absurd rfl h
      · exact h
    have htb : tryBody cfg s = (s1, TryOutcome.completed) := by
      simp only [tryBody, hbr, hfin]
      simp
    rw [htb]
    exact ⟨hrc1, hssr1, hspa1⟩

theorem tryBody_lists_spa (cfg : Cfg) (s : MState)
    (hb : (brAt cfg s).2 = none)
    (hf : (brAt cfg s).1.res.finished = false)
    (hc : classifySpa cfg (brAt cfg s).1.ctx.url = true) :
    rcList (tryBody cfg s).1.trace = rcList s.trace ∧
    ssrList (tryBody cfg s).1.trace = ssrList s.trace ∧
    spaList (tryBody cfg s).1.trace =
      spaList s.trace ++ [(cfg.renderers s.rdIdx).rid] := by
  rcases hbr : invokeHooks .beforeRender none cfg.plugins s with ⟨s1, e1⟩
  have hbrA : brAt cfg s = (s1, e1) := hbr
  rw [hbrA] at hb hf hc
  simp only at hb hf hc
  subst hb
  have h1 := congrArg Prod.fst hbr
  simp only at h1
  have hrc1 : rcList s1.trace = rcList s.trace := by rw [← h1, invokeHooks_rcList]
  have hssr1 : ssrList s1.trace = ssrList s.trace := by rw [← h1, invokeHooks_ssrList]
  have hspa1 : spaList s1.trace = spaList s.trace := by rw [← h1, invokeHooks_spaList]
  have hrd : s1.rdIdx = s.rdIdx := by
    rw [← h1]
    exact (invokeHooks_pres _ _ _ _).2.1
  rcases hspa : (cfg.renderers s1.rdIdx).renderSPAPage with e | b
  · have htb : tryBody cfg s =
        ({ ctx := s1.ctx, response := s1.response, res := s1.res, rdIdx := s1.rdIdx + 1,
           trace := s1.trace ++ [Ev.renderSPAPage (cfg.renderers s1.rdIdx).rid] },
          TryOutcome.thrown e) := by
      simp only [tryBody, hbr, hf, hc, readRenderer, MState.addEv, hspa]
      simp
    rw [htb]
    refine ⟨?_, ?_, ?_⟩ <;>
      simp [rcList_append, ssrList_append, spaList_append, rcList_spaEv, ssrList_spaEv,
        spaList_spaEv, hrc1, hssr1, hspa1, hrd]
  · have htb : tryBody cfg s = renderedAndSend cfg
        { ctx := s1.ctx, response := { body := b, status := s1.response.status },
          res := s1.res, rdIdx := s1.rdIdx + 1,
          trace := s1.trace ++ [Ev.renderSPAPage (cfg.renderers s1.rdIdx).rid] } := by
      simp only [tryBody, hbr, hf, hc, readRenderer, MState.addEv, hspa]
      simp
    rw [htb]
    refine ⟨?_, ?_, ?_⟩
    · rw [renderedAndSend_rcList]
      simp [rcList_append, rcList_spaEv, hrc1]
    · rw [renderedAndSend_ssrList]
      simp [ssrList_append, ssrList_spaEv, hssr1]
    · rw [renderedAndSend_spaList]
      simp [spaList_append, spaList_spaEv, hspa1, hrd]

theorem tryBody_lists_ssr (cfg : Cfg) (s : MState)
    (hb : (brAt cfg s).2 = none)
    (hf : (brAt cfg s).1.res.finished = false)
    (hc : classifySpa cfg (brAt cfg s).1.ctx.url = false) :
    rcList (tryBody cfg s).1.trace =
      rcList s.trace ++ [(cfg.renderers s.rdIdx).rid] ∧
    spaList (tryBody cfg s).1.trace = spaList s.trace ∧
    (ssrList (tryBody cfg s).1.trace = ssrList s.trace ∨
     ssrList (tryBody cfg s).1.trace =
       ssrList s.trace ++ [(cfg.renderers (s.rdIdx + 1)).rid]) := by
  rcases hbr : invokeHooks .beforeRender none cfg.plugins s with ⟨s1, e1⟩
  have hbrA : brAt cfg s = (s1, e1) := hbr
  rw [hbrA] at hb hf hc
  simp only at hb hf hc
  subst hb
  have h1 := congrArg Prod.fst hbr
  simp only at h1
  have hrc1 : rcList s1.trace = rcList s.trace := by rw [← h1, invokeHooks_rcList]
  have hssr1 : ssrList s1.trace = ssrList s.trace := by rw [← h1, invokeHooks_ssrList]
  have hspa1 : spaList s1.trace = spaList s.trace := by rw [← h1, invokeHooks_spaList]
  have hrd : s1.rdIdx = s.rdIdx := by
    rw [← h1]
    exact (invokeHooks_pres _ _ _ _).2.1
  rcases hr : (cfg.renderers s1.rdIdx).render s1.ctx with e | ⟨b, c2⟩
  · -- render rejected
    have htb : tryBody cfg s =
        ({ ctx := s1.ctx, response := s1.response, res := s1.res, rdIdx := s1.rdIdx + 1,
           trace := s1.trace ++ [Ev.renderCall (cfg.renderers s1.rdIdx).rid] },
          TryOutcome.thrown e) := by
      simp only [tryBody, hbr, hf, hc, readRenderer, MState.addEv, hr]
      simp
    rw [htb]
    refine ⟨?_, ?_, Or.inl ?_⟩ <;>
      simp [rcList_append, ssrList_append, spaList_append, rcList_rcEv, ssrList_rcEv,
        spaList_rcEv, hrc1, hssr1, hspa1, hrd]
  · by_cases hred : c2.redirected = true
    · -- renderer flagged a redirect: early return
      have htb : tryBody cfg s =
          ({ ctx := c2, response := { body := b, status := s1.response.status },
             res := s1.res, rdIdx := s1.rdIdx + 1,
             trace := s1.trace ++ [Ev.renderCall (cfg.renderers s1.rdIdx).rid] },
            TryOutcome.earlyReturn) := by
        simp only [tryBody, hbr, hf, hc, readRenderer, MState.addEv, hr, hred]
        simp
      rw [htb]
      refine ⟨?_, ?_, Or.inl ?_⟩ <;>
        simp [rcList_append, ssrList_append, spaList_append, rcList_rcEv, ssrList_rcEv,
          spaList_rcEv, hrc1, hssr1, hspa1, hrd]
    · have hred' : c2.redirected = false := by simpa using hred
      rcases hbb : invokeHooks .beforeBuild none cfg.plugins
          { ctx := c2, response := { body := b, status := s1.response.status },
            res := s1.res, rdIdx := s1.rdIdx + 1,
            trace := s1.trace ++ [Ev.renderCall (cfg.renderers s1.rdIdx).rid] }
          with ⟨s4, e4⟩
      have h4 := congrArg Prod.fst hbb
      simp only at h4
      have hrc4 : rcList s4.trace = rcList s.trace ++ [(cfg.renderers s.rdIdx).rid] := by
        rw [← h4, invokeHooks_rcList]
        simp [rcList_append, rcList_rcEv, hrc1, hrd]
      have hssr4 : ssrList s4.trace = ssrList s.trace := by
        rw [← h4, invokeHooks_ssrList]
        simp [ssrList_append, ssrList_rcEv, hssr1]
      have hspa4 : spaList s4.trace = spaList s.trace := by
        rw [← h4, invokeHooks_spaList]
        simp [spaList_append, spaList_rcEv, hspa1]
      have hrd4 : s4.rdIdx = s.rdIdx + 1 := by
        rw [← h4, (invokeHooks_pres _ _ _ _).2.1]
        simp [hrd]
      cases e4 with
      | some e0 =>
        have htb : tryBody cfg s = (s4, TryOutcome.thrown e0) := by
          simp only [tryBody, hbr, hf, hc, readRenderer, MState.addEv, hr, hred', hbb]
          simp
        rw [htb]
        exact ⟨hrc4, hspa4, Or.inl hssr4⟩
      | none =>
        rcases hssr : (cfg.renderers s4.rdIdx).renderSSRPage s4.response.body s4.ctx
            with e | b2
        · have htb : tryBody cfg s =
              ({ ctx := s4.ctx, response := s4.response, res := s4.res,
                 rdIdx := s4.rdIdx + 1,
                 trace := s4.trace ++ [Ev.renderSSRPage (cfg.renderers s4.rdIdx).rid] },
                TryOutcome.thrown e) := by
            simp only [tryBody, hbr, hf, hc, readRenderer, MState.addEv, hr, hred', hbb,
              hssr]
            simp
          rw [htb]
          refine ⟨?_, ?_, Or.inr ?_⟩ <;>
            simp [rcList_append, ssrList_append, spaList_append, rcList_ssrEv,
              ssrList_ssrEv, spaList_ssrEv, hrc4, hssr4, hspa4, hrd4]
        · have htb : tryBody cfg s = renderedAndSend cfg
              { ctx := s4.ctx, response := { body := b2, status := s4.response.status },
                res := s4.res, rdIdx := s4.rdIdx + 1,
                trace := s4.trace ++ [Ev.renderSSRPage (cfg.renderers s4.rdIdx).rid] } := by
            simp only [tryBody, hbr, hf, hc, readRenderer, MState.addEv, hr, hred', hbb,
              hssr]
            simp
          rw [htb]
          refine ⟨?_, ?_, Or.inr ?_⟩
          · rw [renderedAndSend_rcList]
            simp [rcList_append, rcList_ssrEv, hrc4]
          · rw [renderedAndSend_spaList]
            simp [spaList_append, spaList_ssrEv, hspa4]
          · rw [renderedAndSend_ssrList]
            simp [ssrList_append, ssrList_ssrEv, hssr4, hrd4]

theorem renderMiddleware_filterMap {α : Type} (f : Ev → Option α)
    (hf : RenderOnly f) (cfg : Cfg) :
    List.filterMap f (renderMiddleware cfg).1.trace =
      List.filterMap f (tryRun cfg).1.trace := by
  simp only [renderMiddleware]
  split
  · rename_i s heq
    have h1 := congrArg Prod.fst heq
    simp only at h1
    rw [← h1]
    rfl
  · rename_i s heq
    have h1 := congrArg Prod.fst heq
    simp only at h1
    rw [finishAR_filterMap f hf, ← h1]
    rfl
  · rename_i s e heq
    have h1 := congrArg Prod.fst heq
    simp only at h1
    split
    · rename_i s1 e2 heq2
      have h3 := congrArg Prod.fst heq2
      simp only at h3
      show List.filterMap f s1.trace = _
      rw [← h3, catchBody_filterMap f hf, ← h1]
      rfl
    · rename_i s1 heq2
      have h3 := congrArg Prod.fst heq2
      simp only at h3
      rw [finishAR_filterMap f hf, ← h3, catchBody_filterMap f hf, ← h1]
      rfl

theorem renderMiddleware_rcList (cfg : Cfg) :
    rcList (renderMiddleware cfg).1.trace = rcList (tryRun cfg).1.trace :=
  renderMiddleware_filterMap _ renderOnly_rcOf cfg

theorem renderMiddleware_ssrList (cfg : Cfg) :
    ssrList (renderMiddleware cfg).1.trace = ssrList (tryRun cfg).1.trace :=
  renderMiddleware_filterMap _ renderOnly_ssrOf cfg

theorem renderMiddleware_spaList (cfg : Cfg) :
    spaList (renderMiddleware cfg).1.trace = spaList (tryRun cfg).1.trace :=
  renderMiddleware_filterMap _ renderOnly_spaOf cfg

/-! ## Claim C9 -/

/-- C9 (amended): the pipeline does not capture `this.renderer` into a
local binding; it re-reads the shared field at each renderer call.  In any
run, the full SSR `render` call and the SPA-shell call use the renderer
the field holds at the request's first read (read index 0), while the
`renderSSRPage` assembly call uses the renderer at the second read (read
index 1) — so a hot swap between the two reads makes one request use two
different renderers (see the counterexample). -/
theorem c9_theorem (cfg : Cfg) :
    (rcList (renderMiddleware cfg).1.trace = [] ∨
     rcList (renderMiddleware cfg).1.trace = [(cfg.renderers 0).rid]) ∧
    (ssrList (renderMiddleware cfg).1.trace = [] ∨
     ssrList (renderMiddleware cfg).1.trace = [(cfg.renderers 1).rid]) ∧
    (spaList (renderMiddleware cfg).1.trace = [] ∨
     spaList (renderMiddleware cfg).1.trace = [(cfg.renderers 0).rid]) := by
  rw [renderMiddleware_rcList, renderMiddleware_ssrList, renderMiddleware_spaList,
    show tryRun cfg = tryBody cfg (initState cfg) from rfl]
  by_cases hb : (brPhase cfg).2 = none
  · by_cases hfin : (brPhase cfg).1.res.finished = true
    · have h := tryBody_lists_notReached cfg (initState cfg) (Or.inr hfin)
      refine ⟨Or.inl ?_, Or.inl ?_, Or.inl ?_⟩
      · simpa [initState] using h.1
      · simpa [initState] using h.2.1
      · simpa [initState] using h.2.2
    · have hfin' : (brPhase cfg).1.res.finished = false := by
        simpa using hfin
      by_cases hcls : classifySpa cfg (brPhase cfg).1.ctx.url = true
      · have h := tryBody_lists_spa cfg (initState cfg) hb hfin' hcls
        refine ⟨Or.inl ?_, Or.inl ?_, Or.inr ?_⟩
        · simpa [initState] using h.1
        · simpa [initState] using h.2.1
        · simpa [initState] using h.2.2
      · have hcls' : classifySpa cfg (brPhase cfg).1.ctx.url = false := by
          simpa using hcls
        have h := tryBody_lists_ssr cfg (initState cfg) hb hfin' hcls'
        refine ⟨Or.inr ?_, ?_, Or.inl ?_⟩
        · simpa [initState] using h.1
        · rcases h.2.2 with h2 | h2
          · exact Or.inl (by simpa [initState] using h2)
          · exact Or.inr (by simpa [initState] using h2)
        · simpa [initState] using h.2.1
  · have h := tryBody_lists_notReached cfg (initState cfg) (Or.inl hb)
    refine ⟨Or.inl ?_, Or.inl ?_, Or.inl ?_⟩
    · simpa [initState] using h.1
    · simpa [initState] using h.2.1
    · simpa [initState] using h.2.2

/-- C9 counterexample: with the shared renderer field holding renderer
`n` at its n-th read (a hot swap between the two reads of one SSR
request), the request's `render` call uses renderer 0 and its
`renderSSRPage` call uses renderer 1 — a mix of two renderers inside one
pipeline, so no once-captured local binding exists. -/
theorem c9_counterexample :
    rcList (renderMiddleware cfgSwap).1.trace = [0] ∧
    ssrList (renderMiddleware cfgSwap).1.trace = [1] := by decide

/-! ## Claim C5 -/

/-- C5 (amended): route classification is exclusive — whenever the
configured SPA globs match, no full SSR render and no SSR page assembly
ever run, and when they do not match, the SPA-shell render never runs;
when classification is reached (hooks succeeded, response not finalized)
with a match, the SPA-shell render runs exactly once.  But the glob is
matched against `context.url`, the full request URL including any query
string — not against the URL path alone (see the counterexample). -/
theorem c5_theorem (cfg : Cfg) :
    (classifySpa cfg (brPhase cfg).1.ctx.url = true →
      rcList (renderMiddleware cfg).1.trace = [] ∧
      ssrList (renderMiddleware cfg).1.trace = []) ∧
    (classifySpa cfg (brPhase cfg).1.ctx.url = false →
      spaList (renderMiddleware cfg).1.trace = []) ∧
    ((brPhase cfg).2 = none → (brPhase cfg).1.res.finished = false →
      classifySpa cfg (brPhase cfg).1.ctx.url = true →
      spaList (renderMiddleware cfg).1.trace = [(cfg.renderers 0).rid]) := by
  rw [renderMiddleware_rcList, renderMiddleware_ssrList, renderMiddleware_spaList,
    show tryRun cfg = tryBody cfg (initState cfg) from rfl]
  refine ⟨?_, ?_, ?_⟩
  · intro hcls
    by_cases hb : (brPhase cfg).2 = none
    · by_cases hfin : (brPhase cfg).1.res.finished = true
      · have h := tryBody_lists_notReached cfg (initState cfg) (Or.inr hfin)
        exact ⟨by simpa [initState] using h.1, by simpa [initState] using h.2.1⟩
      · have hfin' : (brPhase cfg).1.res.finished = false := by simpa using hfin
        have h := tryBody_lists_spa cfg (initState cfg) hb hfin' hcls
        exact ⟨by simpa [initState] using h.1, by simpa [initState] using h.2.1⟩
    · have h := tryBody_lists_notReached cfg (initState cfg) (Or.inl hb)
      exact ⟨by simpa [initState] using h.1, by simpa [initState] using h.2.1⟩
  · intro hcls
    by_cases hb : (brPhase cfg).2 = none
    · by_cases hfin : (brPhase cfg).1.res.finished = true
      · have h := tryBody_lists_notReached cfg (initState cfg) (Or.inr hfin)
        simpa [initState] using h.2.2
      · have hfin' : (brPhase cfg).1.res.finished = false := by simpa using hfin
        have h := tryBody_lists_ssr cfg (initState cfg) hb hfin' hcls
        simpa [initState] using h.2.1
    · have h := tryBody_lists_notReached cfg (initState cfg) (Or.inl hb)
      simpa [initState] using h.2.2
  · intro hb hfin hcls
    have h := tryBody_lists_spa cfg (initState cfg) hb hfin hcls
    simpa [initState] using h.2.2

/-- C5 counterexample: SPA glob `/app`, request URL `/app?x=1`.  The URL
path (`/app`) matches the glob, yet the code — which matches the full
`context.url` — takes the SSR branch: `renderSPAPage` is never invoked
and the full `render` runs.  So matching is not applied to the URL path
alone. -/
theorem c5_counterexample :
    micromatchSome (urlPath "/app?x=1") ["/app"] = true ∧
    micromatchSome "/app?x=1" ["/app"] = false ∧
    spaList (renderMiddleware cfgQuery).1.trace = [] ∧
    rcList (renderMiddleware cfgQuery).1.trace = [0] := by decide

/-- C5 witness: SPA glob `/app/**` and URL `/app/dash`: classification
matches, the SPA-shell render runs exactly once and no SSR render ever
runs. -/
theorem c5_witness :
    classifySpa cfgSpa (brPhase cfgSpa).1.ctx.url = true ∧
    rcList (renderMiddleware cfgSpa).1.trace = [] ∧
    ssrList (renderMiddleware cfgSpa).1.trace = [] ∧
    spaList (renderMiddleware cfgSpa).1.trace = [(cfgSpa.renderers 0).rid] := by
  refine ⟨by decide, ((c5_theorem cfgSpa).1 (by decide)).1,
    ((c5_theorem cfgSpa).1 (by decide)).2, (c5_theorem cfgSpa).2.2 rfl rfl (by decide)⟩

/-! ## Claim C7 -/

/-- C7: for every plugin list and hook name, the dispatcher (`invoke` and
`invokeAsync` share this loop; `invokeAsync` merely awaits each call
before the next, which the sequential fold models) calls the hook of each
plugin that has it, in registration order, skipping plugins without it:
on success the trace extends by exactly the hook-bearing registration
indices in order; a hook that throws is the last call made — the
remaining hooks are aborted and the error propagates to the caller. -/
theorem c7_theorem (name : HookName) (arg : Option Err) (ps : List Plugin)
    (s : MState) :
    ((invokeHooks name arg ps s).2 = none →
      (invokeHooks name arg ps s).1.trace =
        s.trace ++ (hookIdxsFrom name 0 ps).map (Ev.hookCalled name)) ∧
    ∀ e, (invokeHooks name arg ps s).2 = some e →
      ∃ pre j, List.IsPrefix (pre ++ [j]) (hookIdxsFrom name 0 ps) ∧
        (invokeHooks name arg ps s).1.trace =
          s.trace ++ pre.map (Ev.hookCalled name) ++ [Ev.hookThrew name j e] :=
  invokeAux_spec name arg ps 0 s

/-- C7 witness: two plugins, the first without a `rendered` hook, the
second with one that succeeds: exactly the second plugin's hook is
called, in order. -/
theorem c7_witness :
    (invokeHooks .rendered none [noopPlugin, renderedOkPlugin] (initState cfgSwap)).2
      = none ∧
    (invokeHooks .rendered none [noopPlugin, renderedOkPlugin] (initState cfgSwap)).1.trace
      = (initState cfgSwap).trace ++
        (hookIdxsFrom .rendered 0 [noopPlugin, renderedOkPlugin]).map
          (Ev.hookCalled .rendered) :=
  ⟨rfl,
    (c7_theorem .rendered none [noopPlugin, renderedOkPlugin] (initState cfgSwap)).1 rfl⟩

/-! ## Claim C6 -/

/-- C6: `sendResponse` sets `Content-Type: text/html; charset=utf-8`,
lets an explicit context `statusCode` override `response.status`, writes
the body and finalizes — but it sets `Content-Length` to the JavaScript
string length of the body (UTF-16 code units), not to its byte length:
for the body `"é"` it sets `Content-Length: 1` while the UTF-8 encoding
that `res.end` writes is 2 bytes long.  This is the code bug the claim's
byte-length clause exposes. -/
theorem c6_theorem :
    (sendResponseM { body := "é", status := 200 }
        { data := [], redirected := false, statusCode := none, url := "/e" }
        (initState cfgSwap).res).contentType = some "text/html; charset=utf-8" ∧
    (sendResponseM { body := "é", status := 200 }
        { data := [], redirected := false, statusCode := none, url := "/e" }
        (initState cfgSwap).res).finished = true ∧
    (sendResponseM { body := "é", status := 200 }
        { data := [], redirected := false, statusCode := none, url := "/e" }
        (initState cfgSwap).res).writtenBody = some "é" ∧
    (sendResponseM { body := "é", status := 200 }
        { data := [], redirected := false, statusCode := none, url := "/e" }
        (initState cfgSwap).res).statusCode = 200 ∧
    (sendResponseM { body := "é", status := 200 }
        { data := [], redirected := false, statusCode := some 404, url := "/e" }
        (initState cfgSwap).res).statusCode = 404 ∧
    (sendResponseM { body := "é", status := 200 }
        { data := [], redirected := false, statusCode := none, url := "/e" }
        (initState cfgSwap).res).contentLength = some 1 ∧
    utf16Len "é" = 1 ∧
    byteLen "é" = 2 := by decide

/-! ## Claim C8 -/

/-- C8 (amended): `stop()` is a no-op unless the server has started;
otherwise it removes the `SIGINT`/`SIGTERM` handlers and delegates to the
adapter's `stop()`, and it is safe to call multiple times (idempotent) —
but it never resets the `started` flag, so the orchestrator does not
return to the not-started state (see the counterexample). -/
theorem c8_theorem (s : SrvState) :
    (s.started = false → serverStop s = s) ∧
    (s.started = true →
      serverStop s = { started := true, sigHandlers := 0, adapterRunning := false }) ∧
    serverStop (serverStop s) = serverStop s := by
  refine ⟨?_, ?_, ?_⟩
  · intro h
    simp [serverStop, h]
  · intro h
    simp [serverStop, adapterStop, h]
  · by_cases h : s.started = true
    · simp [serverStop, adapterStop, h]
    · simp [serverStop, adapterStop, h]

/-- C8 counterexample: stopping a started server leaves `started = true` —
`Server.stop` never assigns `this.started = false`, so the orchestrator
does not transition back to the not-started state. -/
theorem c8_counterexample :
    ¬ ((serverStop { started := true, sigHandlers := 2, adapterRunning := true }).started
        = false) := by decide

/-- C8 witness: the amended theorem applied to a started and to a
not-started server state. -/
theorem c8_witness :
    ({ started := true, sigHandlers := 2, adapterRunning := true } : SrvState).started
      = true ∧
    serverStop { started := true, sigHandlers := 2, adapterRunning := true } =
      { started := true, sigHandlers := 0, adapterRunning := false } ∧
    ({ started := false, sigHandlers := 0, adapterRunning := false } : SrvState).started
      = false ∧
    serverStop { started := false, sigHandlers := 0, adapterRunning := false } =
      { started := false, sigHandlers := 0, adapterRunning := false } :=
  ⟨rfl, (c8_theorem _).2.1 rfl, rfl, (c8_theorem _).1 rfl⟩

end UVue
